import Mathlib

/-!
# go-auth0-demo: the bearer-token middleware of `web/api`

A shallow embedding of `web/api/auth.go` and `web/api/api.go`.

* Go strings are modelled as Lean strings (sequences of characters).  The only
  string operations of the source are a prefix test against the ASCII literal
  `"Bearer "` and the slice `authorization[7:]` taken after that test, on which
  byte offsets and character offsets coincide.
* `context.Context` is the chain of key/value pairs built by `context.WithValue`.
* `http.ResponseWriter` is the explicit state of the response under construction.
* The body of the handler returned by `withAuth` is the ordered list of effects it
  performs on its collaborators (the jwx library, standard output, the response
  writer, the next handler).  `run` gives the list its meaning on a `World`.
* `jwt.ParseString` and `jwt.Validate` belong to the external jwx library; they are
  parameters of the embedding (`JWT`).
-/

namespace Auth0Demo

/-! ## Strings -/

/-- Go `strings.HasPrefix(s, p)`. -/
def hasPrefix (s p : String) : Bool :=
  p.data.isPrefixOf s.data

/-- Go slice expression `s[i:]`; `none` is the run-time panic for an index out of range. -/
def sliceFrom (s : String) (i : Nat) : Option String :=
  if i ≤ s.data.length then some ⟨s.data.drop i⟩ else none

/-- Go `unicode.IsSpace`. -/
def isSpace (c : Char) : Bool :=
  let n := c.toNat
  n = 0x09 || n = 0x0A || n = 0x0B || n = 0x0C || n = 0x0D || n = 0x20 ||
  n = 0x85 || n = 0xA0 || n = 0x1680 || (0x2000 ≤ n && n ≤ 0x200A) ||
  n = 0x2028 || n = 0x2029 || n = 0x202F || n = 0x205F || n = 0x3000

/-- Go `bytes.TrimSpace` (as used by the tests on the response body). -/
def trimSpace (s : String) : String :=
  ⟨((s.data.dropWhile isSpace).reverse.dropWhile isSpace).reverse⟩

/-! ## context.Context -/

/-- A context key: a value of the package-private type `ctxKey`, or a key of any other
dynamic type (two keys are equal only when type and value agree). -/
inductive Key where
  | ctxKey (s : String)
  | foreign (n : Nat)
  deriving DecidableEq, Repr

/-- The constant `ctxKeySubject`, `ctxKey("subject")`. -/
def ctxKeySubject : Key := Key.ctxKey "subject"

/-- A dynamic value stored in a context: a Go `string`, or a value of another type. -/
inductive Value where
  | str (s : String)
  | other (n : Nat)
  deriving DecidableEq, Repr

/-- The part of `context.Context` the package uses: `context.WithValue` chains. -/
inductive Context where
  | background
  | withValue (parent : Context) (key : Key) (val : Value)
  deriving DecidableEq, Repr

/-- The method `ctx.Value(key)`; `none` is the nil interface value. -/
def Context.value : Context → Key → Option Value
  | .background, _ => none
  | .withValue parent k v, key => if k = key then some v else parent.value key

/-- `contextWithSubject` of auth.go. -/
def contextWithSubject (ctx : Context) (subject : String) : Context :=
  Context.withValue ctx ctxKeySubject (Value.str subject)

/-- `subjectFromContext` of auth.go: the checked type assertion `.(string)` on the
value stored under `ctxKeySubject`. -/
def subjectFromContext (ctx : Context) : String × Bool :=
  match ctx.value ctxKeySubject with
  | some (Value.str subject) => (subject, true)
  | _ => ("", false)

/-! ## net/http -/

/-- Go `http.Header`: canonical header names with their values. -/
abbrev Header := List (String × List String)

/-- The values recorded under a header name. -/
def Header.values (h : Header) (key : String) : List String :=
  (h.lookup key).getD []

/-- Go `Header.Get`: the first value of the header, `""` when there is none. -/
def Header.get (h : Header) (key : String) : String :=
  (Header.values h key).head?.getD ""

/-- Go `Header.Set`. -/
def Header.set (h : Header) (key value : String) : Header :=
  (key, [value]) :: h.filter (fun kv => kv.1 != key)

/-- The part of `*http.Request` the package reads. -/
structure Request where
  method : String
  path : String
  header : Header
  ctx : Context
  deriving DecidableEq, Repr

/-- Go `r.WithContext(ctx)`. -/
def Request.withContext (r : Request) (ctx : Context) : Request :=
  { r with ctx := ctx }

/-- The state behind an `http.ResponseWriter`: `status = none` until the header is written. -/
structure ResponseWriter where
  header : Header
  status : Option Nat
  body : String
  deriving DecidableEq, Repr

/-- A response writer as the server hands it to the handler. -/
def ResponseWriter.fresh : ResponseWriter :=
  { header := [], status := none, body := "" }

/-- Go `w.WriteHeader(code)`: only the first call takes effect. -/
def ResponseWriter.writeHeader (w : ResponseWriter) (code : Nat) : ResponseWriter :=
  match w.status with
  | none => { w with status := some code }
  | some _ => w

/-- Go `w.Write(b)`: writes the header with status 200 when it is not written yet. -/
def ResponseWriter.write (w : ResponseWriter) (b : String) : ResponseWriter :=
  let w1 := w.writeHeader 200
  { w1 with body := w1.body ++ b }

/-- Go `fmt.Fprintln(w, s)` for one string operand. -/
def fprintln (w : ResponseWriter) (s : String) : ResponseWriter :=
  w.write (s ++ "\n")

/-- Go `http.Error(w, msg, code)`. -/
def httpError (w : ResponseWriter) (msg : String) (code : Nat) : ResponseWriter :=
  let w1 := { w with header := Header.set (Header.set w.header "Content-Type" "text/plain; charset=utf-8") "X-Content-Type-Options" "nosniff" }
  fprintln (w1.writeHeader code) msg

/-- The constant `http.StatusUnauthorized`. -/
def statusUnauthorized : Nat := 401

/-- The constant `http.StatusOK`. -/
def statusOK : Nat := 200

/-! ## The jwx library, as a parameter -/

/-- A Go `error` value, by the text `%v` prints. -/
structure Error where
  msg : String
  deriving DecidableEq, Repr

/-- The claims of a parsed `jwt.Token`, by its accessors; `Subject()` is `""` when the
token carries no subject claim. -/
structure Token where
  subject : String
  issuer : String
  audience : List String
  expiration : Nat
  notBefore : Nat
  deriving DecidableEq, Repr

/-- The two library calls of `withAuth`.
`parseString url ctx s` is `jwt.ParseString(s, WithPedantic(true), WithKeySetProvider(p))`
where `p` fetches the key set of `url` under `ctx`;
`validate ctx tok iss aud` is `jwt.Validate(tok, WithContext(ctx), WithIssuer(iss),
WithAudience(aud))`, with `none` for a nil error. -/
structure JWT where
  parseString : String → Context → String → Except Error Token
  validate : Context → Token → String → String → Option Error

/-! ## web/api -/

/-- The configuration fields of the struct `Handler` of api.go. -/
structure Handler where
  JWKSURL : String
  ExpectedIssuer : String
  ExpectedAudience : String
  deriving DecidableEq, Repr

/-- What the handler returned by `withAuth` does to its collaborators. -/
inductive Effect where
  | parseString (raw : String)
  | validate (tok : Token) (issuer audience : String)
  | printf (out : String)
  | httpError (msg : String) (code : Nat)
  | serveNext (r : Request)
  | panic
  deriving DecidableEq, Repr

/-- The line `fmt.Printf("auth error: %v\n", err)`. -/
def authErrorLine (err : Error) : String :=
  "auth error: " ++ err.msg ++ "\n"

/-- The handler returned by `Handler.withAuth` of auth.go, as the sequence of effects it
performs for the request `r`. -/
def withAuth (h : Handler) (jwt : JWT) (r : Request) : List Effect :=
  let ctx := r.ctx
  let authorization := Header.get r.header "Authorization"
  if !hasPrefix authorization "Bearer " then
    [Effect.serveNext r]
  else
    match sliceFrom authorization 7 with
    | none => [Effect.panic]
    | some raw =>
      match jwt.parseString h.JWKSURL ctx raw with
      | .error err =>
        [Effect.parseString raw,
         Effect.printf (authErrorLine err),
         Effect.httpError "unauthenticated" statusUnauthorized]
      | .ok tok =>
        match jwt.validate ctx tok h.ExpectedIssuer h.ExpectedAudience with
        | some err =>
          [Effect.parseString raw,
           Effect.validate tok h.ExpectedIssuer h.ExpectedAudience,
           Effect.printf (authErrorLine err),
           Effect.httpError "unauthenticated" statusUnauthorized]
        | none =>
          [Effect.parseString raw,
           Effect.validate tok h.ExpectedIssuer h.ExpectedAudience,
           Effect.serveNext (r.withContext (contextWithSubject ctx tok.subject))]

/-- The observable state one request acts on: the response and the standard output. -/
structure World where
  resp : ResponseWriter
  stdout : String
  deriving DecidableEq, Repr

/-- The world at the moment the server calls the handler. -/
def World.fresh : World :=
  { resp := ResponseWriter.fresh, stdout := "" }

/-- An `http.Handler`, state passing. -/
abbrev HandlerFunc := Request → World → World

/-- The meaning of one effect, given the next handler. -/
def Effect.exec (next : HandlerFunc) : Effect → World → World
  | .parseString _, s => s
  | .validate _ _ _, s => s
  | .printf out, s => { s with stdout := s.stdout ++ out }
  | .httpError msg code, s => { s with resp := Auth0Demo.httpError s.resp msg code }
  | .serveNext r, s => next r s
  | .panic, s => s

/-- Runs a sequence of effects in order. -/
def run (next : HandlerFunc) (effs : List Effect) (s : World) : World :=
  effs.foldl (fun acc e => e.exec next acc) s

/-- The requests handed to the next handler, in order. -/
def nextCalls (effs : List Effect) : List Request :=
  effs.filterMap (fun e => match e with
    | .serveNext r => some r
    | _ => none)

/-- The responses the middleware writes itself, in order. -/
def ownWrites (effs : List Effect) : List (String × Nat) :=
  effs.filterMap (fun e => match e with
    | .httpError msg code => some (msg, code)
    | _ => none)

/-- The strings handed to `jwt.ParseString`, in order. -/
def parseAttempts (effs : List Effect) : List String :=
  effs.filterMap (fun e => match e with
    | .parseString raw => some raw
    | _ => none)

/-- `Handler.subject` of auth.go. -/
def subject (r : Request) (s : World) : World :=
  match subjectFromContext r.ctx with
  | (_, false) => { s with resp := httpError s.resp "unauthenticated" statusUnauthorized }
  | (sub, true) => { s with resp := fprintln s.resp sub }

/-- The `http.ServeMux` built in `Handler.ServeHTTP`, with the single registration
`mux.HandleFunc("/subject", h.subject)`.  What the standard multiplexer does with a
request for any other path is the parameter `other`. -/
def mux (other : HandlerFunc) : HandlerFunc :=
  fun r s => if r.path = "/subject" then subject r s else other r s

/-- `Handler.ServeHTTP` of api.go: the handler built once as `h.withAuth(mux)`. -/
def ServeHTTP (h : Handler) (jwt : JWT) (other : HandlerFunc) : HandlerFunc :=
  fun r s => run (mux other) (withAuth h jwt r) s

/-- Modelled from the spec: the claim-validation step of the Token Verifier (§4.2 step 4),
which the source delegates to `jwt.Validate` of the jwx library, not part of the
repository.  Expiration must be after `now`, not-before at most `now` (both within the
clock-skew tolerance `skew`), the issuer must equal the expected issuer exactly and the
audience must contain the expected audience. -/
def specValidate (now skew : Nat) (tok : Token) (expectedIssuer expectedAudience : String) :
    Option Error :=
  if ¬ (now < tok.expiration + skew) then some ⟨"exp not satisfied"⟩
  else if ¬ (tok.notBefore ≤ now + skew) then some ⟨"nbf not satisfied"⟩
  else if tok.issuer ≠ expectedIssuer then some ⟨"iss not satisfied"⟩
  else if expectedAudience ∉ tok.audience then some ⟨"aud not satisfied"⟩
  else none

/-- Modelled from the spec: a Token Verifier whose validation step is `specValidate`
at the instant `now`; parsing (decode, key selection, signature) stays a parameter. -/
def specJWT (parse : String → Context → String → Except Error Token) (now skew : Nat) : JWT :=
  { parseString := parse, validate := fun _ tok iss aud => specValidate now skew tok iss aud }

/-- The header value of the request with its first seven bytes removed: the string
`authorization[7:]` that `withAuth` hands to `jwt.ParseString`. -/
def bearerToken (r : Request) : String :=
  ⟨(Header.get r.header "Authorization").data.drop 7⟩

/-! ## Notions used by the statements -/

/-- The bearer scheme in the spec's words (§6): the value is `Bearer <token>` with exactly
one space between the scheme and the token, that is, it starts with "Bearer " and the
rest does not start with a further space. -/
def isBearerOneSpace (v : String) : Bool :=
  hasPrefix v "Bearer " && !hasPrefix v "Bearer  "

/-- Trimming white space, on lists of characters. -/
def trimList (l : List Char) : List Char :=
  ((l.dropWhile isSpace).reverse.dropWhile isSpace).reverse

/-- A string that neither starts nor ends with white space. -/
def noSurroundingSpace (s : String) : Bool :=
  s.data.head?.all (fun c => !isSpace c) && s.data.getLast?.all (fun c => !isSpace c)

/-! ## Sample data -/

/-- The handler configuration of the test server in auth_test.go. -/
def testHandler : Handler :=
  { JWKSURL := "http://127.0.0.1/.well-known/jwks.json",
    ExpectedIssuer := "test-issuer",
    ExpectedAudience := "test-audience" }

/-- A token as `genBearerToken` of auth_test.go builds it, with the given subject and
audience, valid between the instants 1000 and 4600. -/
def testToken (sub : String) (aud : List String) : Token :=
  { subject := sub, issuer := "test-issuer", audience := aud,
    expiration := 4600, notBefore := 1000 }

/-- A parser that accepts the one encoded token `"tok"` as the token `t`. -/
def parseOnly (t : Token) : String → Context → String → Except Error Token :=
  fun _ _ raw => if raw = "tok" then .ok t else .error ⟨"invalid JWT"⟩

/-- A request `GET /subject` with the given `Authorization` values, as it arrives from
the server. -/
def testRequest (auth : List String) : Request :=
  { method := "GET", path := "/subject", header := [("Authorization", auth)],
    ctx := Context.background }

/-- A handler that leaves the response untouched. -/
def idle : HandlerFunc := fun _ s => s

/-! ## Basic facts -/

theorem hasPrefix_length_le (s p : String) (hp : hasPrefix s p = true) :
    p.data.length ≤ s.data.length := by
  unfold hasPrefix at hp
  exact (List.isPrefixOf_iff_prefix.mp hp).length_le

theorem hasPrefix_bearer_length (a : String) (hp : hasPrefix a "Bearer " = true) :
    7 ≤ a.data.length := by
  have hlen := hasPrefix_length_le a "Bearer " hp
  simpa using hlen

theorem hasPrefix_bearer_split (a : String) (hp : hasPrefix a "Bearer " = true) :
    a = "Bearer " ++ (⟨a.data.drop 7⟩ : String) := by
  unfold hasPrefix at hp
  obtain ⟨t, ht⟩ := List.isPrefixOf_iff_prefix.mp hp
  apply String.ext
  rw [String.data_append, ← ht]
  simp

theorem sliceFrom_bearer (a : String) (hp : hasPrefix a "Bearer " = true) :
    sliceFrom a 7 = some ⟨a.data.drop 7⟩ := by
  unfold sliceFrom
  rw [if_pos (hasPrefix_bearer_length a hp)]

theorem get_of_no_values (hd : Header) (key : String) (hv : Header.values hd key = []) :
    Header.get hd key = "" := by
  simp [Header.get, hv]

theorem subjectFromContext_contextWithSubject (ctx : Context) (sub : String) :
    subjectFromContext (contextWithSubject ctx sub) = (sub, true) := by
  simp [subjectFromContext, contextWithSubject, Context.value]

/-! ## The four paths of `withAuth` -/

theorem withAuth_noBearer (h : Handler) (jwt : JWT) (r : Request)
    (hb : hasPrefix (Header.get r.header "Authorization") "Bearer " = false) :
    withAuth h jwt r = [Effect.serveNext r] := by
  simp [withAuth, hb]

theorem withAuth_parseError (h : Handler) (jwt : JWT) (r : Request) (err : Error)
    (hb : hasPrefix (Header.get r.header "Authorization") "Bearer " = true)
    (hp : jwt.parseString h.JWKSURL r.ctx (bearerToken r) = .error err) :
    withAuth h jwt r =
      [Effect.parseString (bearerToken r), Effect.printf (authErrorLine err),
       Effect.httpError "unauthenticated" statusUnauthorized] := by
  unfold bearerToken at hp
  simp [withAuth, hb, sliceFrom_bearer _ hb, hp, bearerToken]

theorem withAuth_validateError (h : Handler) (jwt : JWT) (r : Request) (tok : Token)
    (err : Error)
    (hb : hasPrefix (Header.get r.header "Authorization") "Bearer " = true)
    (hp : jwt.parseString h.JWKSURL r.ctx (bearerToken r) = .ok tok)
    (hv : jwt.validate r.ctx tok h.ExpectedIssuer h.ExpectedAudience = some err) :
    withAuth h jwt r =
      [Effect.parseString (bearerToken r),
       Effect.validate tok h.ExpectedIssuer h.ExpectedAudience,
       Effect.printf (authErrorLine err),
       Effect.httpError "unauthenticated" statusUnauthorized] := by
  unfold bearerToken at hp
  simp [withAuth, hb, sliceFrom_bearer _ hb, hp, hv, bearerToken]

theorem withAuth_accepted (h : Handler) (jwt : JWT) (r : Request) (tok : Token)
    (hb : hasPrefix (Header.get r.header "Authorization") "Bearer " = true)
    (hp : jwt.parseString h.JWKSURL r.ctx (bearerToken r) = .ok tok)
    (hv : jwt.validate r.ctx tok h.ExpectedIssuer h.ExpectedAudience = none) :
    withAuth h jwt r =
      [Effect.parseString (bearerToken r),
       Effect.validate tok h.ExpectedIssuer h.ExpectedAudience,
       Effect.serveNext (r.withContext (contextWithSubject r.ctx tok.subject))] := by
  unfold bearerToken at hp
  simp [withAuth, hb, sliceFrom_bearer _ hb, hp, hv, bearerToken]

/-- The response `http.Error(w, "unauthenticated", 401)` leaves on a writer on which
nothing was written. -/
theorem httpError_unwritten (w : ResponseWriter) (msg : String) (code : Nat)
    (hs : w.status = none) (hbody : w.body = "") :
    (httpError w msg code).status = some code ∧ (httpError w msg code).body = msg ++ "\n" := by
  simp [httpError, fprintln, ResponseWriter.write, ResponseWriter.writeHeader, hs, hbody]

/-! ## Error path -/

/-- C1: for a request whose Authorization value starts with "Bearer ", when
jwt.ParseString returns an error, or it succeeds and jwt.Validate returns an error, the
handler returned by withAuth never calls the next handler and writes exactly one
response, http.Error "unauthenticated" with status 401; on a writer on which nothing
was written the status is 401 and the body is exactly "unauthenticated\n".  The response
is a function of the writer alone, so it is the same for every error value. -/
theorem withAuth_error_unauthenticated (h : Handler) (jwt : JWT) (r : Request)
    (next : HandlerFunc) (s : World)
    (hb : hasPrefix (Header.get r.header "Authorization") "Bearer " = true)
    (hfail : (∃ err, jwt.parseString h.JWKSURL r.ctx (bearerToken r) = .error err) ∨
      (∃ tok err, jwt.parseString h.JWKSURL r.ctx (bearerToken r) = .ok tok ∧
        jwt.validate r.ctx tok h.ExpectedIssuer h.ExpectedAudience = some err))
    (hs : s.resp.status = none) (hbody : s.resp.body = "") :
    nextCalls (withAuth h jwt r) = [] ∧
    ownWrites (withAuth h jwt r) = [("unauthenticated", 401)] ∧
    (run next (withAuth h jwt r) s).resp = httpError s.resp "unauthenticated" 401 ∧
    (run next (withAuth h jwt r) s).resp.status = some 401 ∧
    (run next (withAuth h jwt r) s).resp.body = "unauthenticated\n" := by
  have hw := httpError_unwritten s.resp "unauthenticated" 401 hs hbody
  rcases hfail with ⟨err, hp⟩ | ⟨tok, err, hp, hv⟩
  · rw [withAuth_parseError h jwt r err hb hp]
    refine ⟨by simp [nextCalls], by simp [ownWrites, statusUnauthorized], ?_, ?_, ?_⟩
    · simp [run, Effect.exec, statusUnauthorized]
    · simpa [run, Effect.exec, statusUnauthorized] using hw.1
    · simpa [run, Effect.exec, statusUnauthorized] using hw.2
  · rw [withAuth_validateError h jwt r tok err hb hp hv]
    refine ⟨by simp [nextCalls], by simp [ownWrites, statusUnauthorized], ?_, ?_, ?_⟩
    · simp [run, Effect.exec, statusUnauthorized]
    · simpa [run, Effect.exec, statusUnauthorized] using hw.1
    · simpa [run, Effect.exec, statusUnauthorized] using hw.2

/-- Witness of C1: an undecodable bearer token on the test server. -/
theorem withAuth_error_unauthenticated_witness :
    nextCalls (withAuth testHandler (specJWT (parseOnly (testToken "u" [])) 2000 0)
      (testRequest ["Bearer garbage"])) = [] ∧
    (run idle (withAuth testHandler (specJWT (parseOnly (testToken "u" [])) 2000 0)
      (testRequest ["Bearer garbage"])) World.fresh).resp.body = "unauthenticated\n" :=
  have key := withAuth_error_unauthenticated testHandler
    (specJWT (parseOnly (testToken "u" [])) 2000 0) (testRequest ["Bearer garbage"]) idle
    World.fresh (by decide) (Or.inl ⟨⟨"invalid JWT"⟩, rfl⟩) rfl rfl
  ⟨key.1, key.2.2.2.2⟩

/-! ## Success path -/

/-- C2: for a request whose bearer token jwt.ParseString and jwt.Validate both accept,
the handler returned by withAuth writes nothing itself and calls the next handler exactly
once, with the request whose context is contextWithSubject(ctx, tok.Subject()); on that
context subjectFromContext returns (tok.Subject(), true).  In particular
subjectFromContext(contextWithSubject(ctx, s)) = (s, true) for every ctx and s. -/
theorem withAuth_accepted_subject (h : Handler) (jwt : JWT) (r : Request) (tok : Token)
    (hb : hasPrefix (Header.get r.header "Authorization") "Bearer " = true)
    (hp : jwt.parseString h.JWKSURL r.ctx (bearerToken r) = .ok tok)
    (hv : jwt.validate r.ctx tok h.ExpectedIssuer h.ExpectedAudience = none) :
    (∃ r', nextCalls (withAuth h jwt r) = [r'] ∧
      r' = r.withContext (contextWithSubject r.ctx tok.subject) ∧
      subjectFromContext r'.ctx = (tok.subject, true)) ∧
    ownWrites (withAuth h jwt r) = [] ∧
    (∀ (ctx : Context) (sub : String),
      subjectFromContext (contextWithSubject ctx sub) = (sub, true)) := by
  rw [withAuth_accepted h jwt r tok hb hp hv]
  refine ⟨⟨_, by simp [nextCalls], rfl, ?_⟩, by simp [ownWrites],
    subjectFromContext_contextWithSubject⟩
  exact subjectFromContext_contextWithSubject r.ctx tok.subject

/-- Witness of C2: the valid token of the test `ok`. -/
theorem withAuth_accepted_subject_witness :
    ∃ r', nextCalls (withAuth testHandler
        (specJWT (parseOnly (testToken "random-test-subject" ["test-audience"])) 2000 0)
        (testRequest ["Bearer tok"])) = [r'] ∧
      subjectFromContext r'.ctx = ("random-test-subject", true) :=
  have key := withAuth_accepted_subject testHandler
    (specJWT (parseOnly (testToken "random-test-subject" ["test-audience"])) 2000 0)
    (testRequest ["Bearer tok"]) (testToken "random-test-subject" ["test-audience"])
    (by decide) rfl (by decide)
  match key.1 with
  | ⟨r', h1, _, h3⟩ => ⟨r', h1, h3⟩

/-! ## Requests without bearer credentials -/

/-- C3: for a request that has no Authorization header, or whose Authorization value
does not start with "Bearer ", the handler returned by withAuth does one thing only: it
calls the next handler once with the very same request (same context).  It writes
nothing, makes no call of jwt.ParseString, the world after the call is what the next
handler made of it, and when the incoming context carried no subject the context seen
downstream carries none: subjectFromContext returns ("", false). -/
theorem withAuth_forwards_unchanged (h : Handler) (jwt : JWT) (r : Request)
    (hno : Header.values r.header "Authorization" = [] ∨
      hasPrefix (Header.get r.header "Authorization") "Bearer " = false) :
    withAuth h jwt r = [Effect.serveNext r] ∧
    nextCalls (withAuth h jwt r) = [r] ∧
    ownWrites (withAuth h jwt r) = [] ∧
    parseAttempts (withAuth h jwt r) = [] ∧
    (∀ (next : HandlerFunc) (s : World), run next (withAuth h jwt r) s = next r s) ∧
    ((subjectFromContext r.ctx).2 = false →
      ∀ r' ∈ nextCalls (withAuth h jwt r), subjectFromContext r'.ctx = ("", false)) := by
  have hb : hasPrefix (Header.get r.header "Authorization") "Bearer " = false := by
    rcases hno with hv | hb
    · rw [get_of_no_values _ _ hv]; decide
    · exact hb
  rw [withAuth_noBearer h jwt r hb]
  refine ⟨rfl, by simp [nextCalls], by simp [ownWrites], by simp [parseAttempts], ?_, ?_⟩
  · intro next s
    simp [run, Effect.exec]
  · intro hctx r' hr'
    simp [nextCalls] at hr'
    subst hr'
    unfold subjectFromContext at hctx ⊢
    split <;> simp_all

/-- Witness of C3: a Basic scheme is forwarded untouched. -/
theorem withAuth_forwards_unchanged_witness :
    withAuth testHandler (specJWT (parseOnly (testToken "u" [])) 2000 0)
      (testRequest ["Basic dXNlcjpwYXNz"]) =
      [Effect.serveNext (testRequest ["Basic dXNlcjpwYXNz"])] :=
  (withAuth_forwards_unchanged testHandler (specJWT (parseOnly (testToken "u" [])) 2000 0)
    (testRequest ["Basic dXNlcjpwYXNz"]) (Or.inr (by decide))).1

/-- The values the spec lists as not carrying a bearer scheme fail the prefix test. -/
theorem nonBearer_examples :
    hasPrefix "" "Bearer " = false ∧ hasPrefix "Basic dXNlcjpwYXNz" "Bearer " = false ∧
    hasPrefix "bearer abc" "Bearer " = false ∧ hasPrefix "Bearer" "Bearer " = false ∧
    hasPrefix "BEARER abc" "Bearer " = false := by
  decide

/-! ## The bearer scheme -/

/-- All three continuations of the bearer path start with one call of jwt.ParseString on
`authorization[7:]`. -/
theorem parseAttempts_bearer (h : Handler) (jwt : JWT) (r : Request)
    (hb : hasPrefix (Header.get r.header "Authorization") "Bearer " = true) :
    parseAttempts (withAuth h jwt r) = [bearerToken r] := by
  cases hp : jwt.parseString h.JWKSURL r.ctx (bearerToken r) with
  | error err =>
    rw [withAuth_parseError h jwt r err hb hp]
    simp [parseAttempts]
  | ok tok =>
    cases hv : jwt.validate r.ctx tok h.ExpectedIssuer h.ExpectedAudience with
    | some err =>
      rw [withAuth_validateError h jwt r tok err hb hp hv]
      simp [parseAttempts]
    | none =>
      rw [withAuth_accepted h jwt r tok hb hp hv]
      simp [parseAttempts]

/-- C4, as stated, fails: the value "Bearer" + two spaces + "abc" is not of the form
`Bearer <token>` with exactly one space, yet the middleware does not forward the
request; it hands " abc" to jwt.ParseString and, the parse failing, answers 401. -/
theorem two_spaces_not_forwarded :
    isBearerOneSpace "Bearer  abc" = false ∧
    withAuth testHandler (specJWT (parseOnly (testToken "u" [])) 2000 0)
      (testRequest ["Bearer  abc"]) =
      [Effect.parseString " abc", Effect.printf "auth error: invalid JWT\n",
       Effect.httpError "unauthenticated" 401] ∧
    ¬ (∀ (h : Handler) (jwt : JWT) (r : Request),
        isBearerOneSpace (Header.get r.header "Authorization") = false →
        withAuth h jwt r = [Effect.serveNext r]) := by
  refine ⟨by decide, by decide, ?_⟩
  intro hall
  have hfwd := hall testHandler (specJWT (parseOnly (testToken "u" [])) 2000 0)
    (testRequest ["Bearer  abc"]) (by decide)
  revert hfwd
  decide

/-- C4, amended: the middleware treats an Authorization value as carrying credentials
exactly when it starts with the seven bytes "Bearer ".  Then the value is "Bearer "
followed by `authorization[7:]`, and exactly that remainder (further leading spaces
included) is handed once to jwt.ParseString.  For every other value the request is
forwarded to the next handler and no verification is attempted. -/
theorem withAuth_credentials_iff_bearer (h : Handler) (jwt : JWT) (r : Request) :
    (hasPrefix (Header.get r.header "Authorization") "Bearer " = true →
      Header.get r.header "Authorization" = "Bearer " ++ bearerToken r ∧
      parseAttempts (withAuth h jwt r) = [bearerToken r]) ∧
    (hasPrefix (Header.get r.header "Authorization") "Bearer " = false →
      withAuth h jwt r = [Effect.serveNext r] ∧
      parseAttempts (withAuth h jwt r) = []) := by
  constructor
  · intro hb
    exact ⟨hasPrefix_bearer_split _ hb, parseAttempts_bearer h jwt r hb⟩
  · intro hb
    rw [withAuth_noBearer h jwt r hb]
    exact ⟨rfl, by simp [parseAttempts]⟩

/-- Witness of C4 amended: two spaces after the scheme are verified, token " tok". -/
theorem withAuth_credentials_iff_bearer_witness :
    parseAttempts (withAuth testHandler (specJWT (parseOnly (testToken "u" [])) 2000 0)
      (testRequest ["Bearer  tok"])) = [" tok"] :=
  ((withAuth_credentials_iff_bearer testHandler
    (specJWT (parseOnly (testToken "u" [])) 2000 0)
    (testRequest ["Bearer  tok"])).1 (by decide)).2

/-! ## Issuer and audience -/

/-- The validation step of the spec fails when the issuer differs from the expected one
or the expected audience is not in the token's audience. -/
theorem specValidate_mismatch (now skew : Nat) (tok : Token) (iss aud : String)
    (hbad : tok.issuer ≠ iss ∨ aud ∉ tok.audience) :
    ∃ err, specValidate now skew tok iss aud = some err := by
  unfold specValidate
  by_cases h1 : now < tok.expiration + skew
  · by_cases h2 : tok.notBefore ≤ now + skew
    · by_cases h3 : tok.issuer = iss
      · rcases hbad with hi | ha
        · exact absurd h3 hi
        · exact ⟨⟨"aud not satisfied"⟩, by simp [h1, h2, h3, ha]⟩
      · exact ⟨⟨"iss not satisfied"⟩, by simp [h1, h2, h3]⟩
    · exact ⟨⟨"nbf not satisfied"⟩, by simp [h1, h2]⟩
  · exact ⟨⟨"exp not satisfied"⟩, by simp [h1]⟩

/-- Every call of jwt.Validate made by the middleware names the configured issuer and
audience. -/
theorem validate_uses_configuration (h : Handler) (jwt : JWT) (r : Request)
    (t : Token) (iss aud : String)
    (hmem : Effect.validate t iss aud ∈ withAuth h jwt r) :
    iss = h.ExpectedIssuer ∧ aud = h.ExpectedAudience := by
  unfold withAuth at hmem
  simp only [] at hmem
  split at hmem
  · simp at hmem
  · split at hmem
    · simp at hmem
    · split at hmem
      · simp at hmem
      · split at hmem
        · simp at hmem
          exact ⟨hmem.2.1, hmem.2.2⟩
        · simp at hmem
          exact ⟨hmem.2.1, hmem.2.2⟩

/-- C5: with the validation step of the spec behind jwt.Validate, for every bearer token
that parses successfully but whose issuer is not exactly Handler.ExpectedIssuer, or whose
audience list does not contain Handler.ExpectedAudience, the middleware never calls the
next handler and answers 401 with body "unauthenticated\n"; the validation call is made
on the parsed token with exactly the handler's ExpectedIssuer and ExpectedAudience, and
no validation call names any other issuer or audience. -/
theorem withAuth_rejects_issuer_audience (h : Handler)
    (parse : String → Context → String → Except Error Token) (now skew : Nat)
    (r : Request) (tok : Token) (next : HandlerFunc) (s : World)
    (hb : hasPrefix (Header.get r.header "Authorization") "Bearer " = true)
    (hp : parse h.JWKSURL r.ctx (bearerToken r) = .ok tok)
    (hbad : tok.issuer ≠ h.ExpectedIssuer ∨ h.ExpectedAudience ∉ tok.audience)
    (hs : s.resp.status = none) (hbody : s.resp.body = "") :
    nextCalls (withAuth h (specJWT parse now skew) r) = [] ∧
    (run next (withAuth h (specJWT parse now skew) r) s).resp.status = some 401 ∧
    (run next (withAuth h (specJWT parse now skew) r) s).resp.body = "unauthenticated\n" ∧
    Effect.validate tok h.ExpectedIssuer h.ExpectedAudience ∈
      withAuth h (specJWT parse now skew) r ∧
    (∀ (t : Token) (iss aud : String),
      Effect.validate t iss aud ∈ withAuth h (specJWT parse now skew) r →
      iss = h.ExpectedIssuer ∧ aud = h.ExpectedAudience) := by
  obtain ⟨err, herr⟩ := specValidate_mismatch now skew tok h.ExpectedIssuer
    h.ExpectedAudience hbad
  have hp' : (specJWT parse now skew).parseString h.JWKSURL r.ctx (bearerToken r) = .ok tok := hp
  have hv : (specJWT parse now skew).validate r.ctx tok h.ExpectedIssuer h.ExpectedAudience
      = some err := herr
  have hw := httpError_unwritten s.resp "unauthenticated" 401 hs hbody
  refine ⟨?_, ?_, ?_, ?_, fun t iss aud hmem => validate_uses_configuration h _ r t iss aud hmem⟩
  · rw [withAuth_validateError h _ r tok err hb hp' hv]
    simp [nextCalls]
  · rw [withAuth_validateError h _ r tok err hb hp' hv]
    simpa [run, Effect.exec, statusUnauthorized] using hw.1
  · rw [withAuth_validateError h _ r tok err hb hp' hv]
    simpa [run, Effect.exec, statusUnauthorized] using hw.2
  · rw [withAuth_validateError h _ r tok err hb hp' hv]
    simp

/-- Witness of C5: scenario D, a token whose audience is not the configured one. -/
theorem withAuth_rejects_issuer_audience_witness :
    nextCalls (withAuth testHandler
      (specJWT (parseOnly (testToken "test-subject" ["other-audience"])) 2000 0)
      (testRequest ["Bearer tok"])) = [] ∧
    (run idle (withAuth testHandler
      (specJWT (parseOnly (testToken "test-subject" ["other-audience"])) 2000 0)
      (testRequest ["Bearer tok"])) World.fresh).resp.status = some 401 :=
  have key := withAuth_rejects_issuer_audience testHandler
    (parseOnly (testToken "test-subject" ["other-audience"])) 2000 0
    (testRequest ["Bearer tok"]) (testToken "test-subject" ["other-audience"]) idle
    World.fresh (by decide) rfl (Or.inr (by decide)) rfl rfl
  ⟨key.1, key.2.1⟩

/-! ## Tokens without a subject -/

/-- C6, as stated, fails: a bearer token that carries no subject claim (Subject() is
the empty default) but passes parsing and the validation step is verified successfully.
The middleware forwards the request with the empty subject attached
(subjectFromContext returns ("", true)) and /subject answers 200 with body "\n". -/
theorem subjectless_token_forwarded :
    (testToken "" ["test-audience"]).subject = "" ∧
    nextCalls (withAuth testHandler
      (specJWT (parseOnly (testToken "" ["test-audience"])) 2000 0)
      (testRequest ["Bearer tok"])) =
      [(testRequest ["Bearer tok"]).withContext
        (contextWithSubject Context.background "")] ∧
    subjectFromContext (contextWithSubject Context.background "") = ("", true) ∧
    (ServeHTTP testHandler (specJWT (parseOnly (testToken "" ["test-audience"])) 2000 0)
      idle (testRequest ["Bearer tok"]) World.fresh).resp =
      { header := [], status := some 200, body := "\n" } := by
  decide

/-- C6, amended: the middleware makes no subject-presence check of its own.  A request
with a bearer token is handed to the next handler if and only if jwt.ParseString and
jwt.Validate (called with the configured issuer and audience) both succeed; the request
handed on is then the incoming one with exactly tok.Subject() attached, and
subjectFromContext returns (tok.Subject(), true) on it, the empty string included.
When either call fails nothing is handed on. -/
theorem withAuth_forwards_iff_verified (h : Handler) (jwt : JWT) (r : Request)
    (hb : hasPrefix (Header.get r.header "Authorization") "Bearer " = true)
    (r' : Request) :
    r' ∈ nextCalls (withAuth h jwt r) ↔
      ∃ tok, jwt.parseString h.JWKSURL r.ctx (bearerToken r) = .ok tok ∧
        jwt.validate r.ctx tok h.ExpectedIssuer h.ExpectedAudience = none ∧
        r' = r.withContext (contextWithSubject r.ctx tok.subject) ∧
        subjectFromContext r'.ctx = (tok.subject, true) := by
  cases hp : jwt.parseString h.JWKSURL r.ctx (bearerToken r) with
  | error err =>
    rw [withAuth_parseError h jwt r err hb hp]
    simp [nextCalls]
  | ok tok =>
    cases hv : jwt.validate r.ctx tok h.ExpectedIssuer h.ExpectedAudience with
    | some err =>
      rw [withAuth_validateError h jwt r tok err hb hp hv]
      constructor
      · intro hmem
        simp [nextCalls] at hmem
      · rintro ⟨tok', htok, hv', -, -⟩
        cases htok
        rw [hv] at hv'
        cases hv'
    | none =>
      rw [withAuth_accepted h jwt r tok hb hp hv]
      constructor
      · intro hmem
        simp [nextCalls] at hmem
        subst hmem
        exact ⟨tok, rfl, hv, rfl, subjectFromContext_contextWithSubject r.ctx tok.subject⟩
      · rintro ⟨tok', htok, -, hr', -⟩
        cases htok
        simp [nextCalls, hr']

/-- Witness of C6 amended: the accepted token without a subject is handed on. -/
theorem withAuth_forwards_iff_verified_witness :
    (testRequest ["Bearer tok"]).withContext (contextWithSubject Context.background "") ∈
      nextCalls (withAuth testHandler
        (specJWT (parseOnly (testToken "" ["test-audience"])) 2000 0)
        (testRequest ["Bearer tok"])) :=
  (withAuth_forwards_iff_verified testHandler
    (specJWT (parseOnly (testToken "" ["test-audience"])) 2000 0)
    (testRequest ["Bearer tok"]) (by decide) _).mpr
    ⟨testToken "" ["test-audience"], rfl, by decide, rfl, by decide⟩

/-! ## End to end: `/subject` -/

theorem trimSpace_data (s : String) : trimSpace s = ⟨trimList s.data⟩ := rfl

theorem trimList_append_newline (l : List Char) : trimList (l ++ ['\n']) = trimList l := by
  induction l with
  | nil => decide
  | cons a t ih =>
    by_cases ha : isSpace a = true
    · have h1 : trimList (a :: t ++ ['\n']) = trimList (t ++ ['\n']) := by
        simp [trimList, List.dropWhile_cons, ha]
      have h2 : trimList (a :: t) = trimList t := by
        simp [trimList, List.dropWhile_cons, ha]
      rw [h1, h2, ih]
    · have hnl : isSpace '\n' = true := by decide
      simp [trimList, List.dropWhile_cons, ha, hnl]

theorem dropWhile_head_not (p : Char → Bool) (l : List Char)
    (hh : l.head?.all (fun c => !p c) = true) : l.dropWhile p = l := by
  cases l with
  | nil => rfl
  | cons a t =>
    have ha : p a = false := by simpa using hh
    simp [List.dropWhile_cons, ha]

theorem trimList_noSpace (l : List Char)
    (h1 : l.head?.all (fun c => !isSpace c) = true)
    (h2 : l.getLast?.all (fun c => !isSpace c) = true) : trimList l = l := by
  unfold trimList
  rw [dropWhile_head_not isSpace l h1]
  rw [dropWhile_head_not isSpace l.reverse (by rw [List.head?_reverse]; exact h2)]
  exact List.reverse_reverse l

theorem trimSpace_println (s : String) : trimSpace (s ++ "\n") = trimSpace s := by
  rw [trimSpace_data, trimSpace_data, String.data_append]
  exact congrArg String.mk (trimList_append_newline s.data)

theorem trimSpace_noSurroundingSpace (s : String) (hs : noSurroundingSpace s = true) :
    trimSpace s = s := by
  unfold noSurroundingSpace at hs
  rw [Bool.and_eq_true] at hs
  rw [trimSpace_data, trimList_noSpace s.data hs.1 hs.2]

/-- C7: for every request to path /subject that has no Authorization header, whatever
the method, arriving with a context without subject on a writer on which nothing was
written, Handler.ServeHTTP answers with status 401 and body exactly "unauthenticated\n",
which is "unauthenticated" once white space is trimmed: the middleware hands the very
same request to the multiplexer and the subject handler rejects it. -/
theorem ServeHTTP_subject_unauthenticated (h : Handler) (jwt : JWT) (other : HandlerFunc)
    (r : Request) (s : World)
    (hpath : r.path = "/subject")
    (hno : Header.values r.header "Authorization" = [])
    (hctx : (subjectFromContext r.ctx).2 = false)
    (hs : s.resp.status = none) (hbody : s.resp.body = "") :
    (ServeHTTP h jwt other r s).resp.status = some 401 ∧
    (ServeHTTP h jwt other r s).resp.body = "unauthenticated\n" ∧
    trimSpace (ServeHTTP h jwt other r s).resp.body = "unauthenticated" ∧
    nextCalls (withAuth h jwt r) = [r] := by
  have hb : hasPrefix (Header.get r.header "Authorization") "Bearer " = false := by
    rw [get_of_no_values _ _ hno]; decide
  have hw := httpError_unwritten s.resp "unauthenticated" 401 hs hbody
  have hrun : ServeHTTP h jwt other r s =
      { s with resp := httpError s.resp "unauthenticated" 401 } := by
    unfold ServeHTTP
    rw [withAuth_noBearer h jwt r hb]
    cases hsc : subjectFromContext r.ctx with
    | mk sub ok =>
      rw [hsc] at hctx
      simp only at hctx
      subst hctx
      simp [run, Effect.exec, mux, hpath, subject, hsc, statusUnauthorized]
  rw [hrun, withAuth_noBearer h jwt r hb]
  refine ⟨hw.1, hw.2, ?_, by simp [nextCalls]⟩
  show trimSpace (httpError s.resp "unauthenticated" 401).body = "unauthenticated"
  rw [hw.2]
  decide

/-- Witness of C7: scenario A, a POST without any header. -/
theorem ServeHTTP_subject_unauthenticated_witness :
    (ServeHTTP testHandler (specJWT (parseOnly (testToken "u" [])) 2000 0) idle
      { method := "POST", path := "/subject", header := [], ctx := Context.background }
      World.fresh).resp.status = some 401 ∧
    (ServeHTTP testHandler (specJWT (parseOnly (testToken "u" [])) 2000 0) idle
      { method := "POST", path := "/subject", header := [], ctx := Context.background }
      World.fresh).resp.body = "unauthenticated\n" :=
  have key := ServeHTTP_subject_unauthenticated testHandler
    (specJWT (parseOnly (testToken "u" [])) 2000 0) idle
    { method := "POST", path := "/subject", header := [], ctx := Context.background }
    World.fresh rfl rfl rfl rfl rfl
  ⟨key.1, key.2.1⟩

/-- C8, as stated, fails for a subject with surrounding white space: the accepted token
with subject " x" gets status 200 and body " x\n", whose white-space-trimmed form is
"x", not the subject. -/
theorem padded_subject_not_recovered :
    (ServeHTTP testHandler (specJWT (parseOnly (testToken " x" ["test-audience"])) 2000 0)
      idle (testRequest ["Bearer tok"]) World.fresh).resp.status = some 200 ∧
    (ServeHTTP testHandler (specJWT (parseOnly (testToken " x" ["test-audience"])) 2000 0)
      idle (testRequest ["Bearer tok"]) World.fresh).resp.body = " x\n" ∧
    trimSpace (ServeHTTP testHandler
      (specJWT (parseOnly (testToken " x" ["test-audience"])) 2000 0)
      idle (testRequest ["Bearer tok"]) World.fresh).resp.body = "x" ∧
    trimSpace (ServeHTTP testHandler
      (specJWT (parseOnly (testToken " x" ["test-audience"])) 2000 0)
      idle (testRequest ["Bearer tok"]) World.fresh).resp.body ≠
      (testToken " x" ["test-audience"]).subject := by
  decide

/-- C8, amended: for every request to path /subject whose bearer token is accepted by
jwt.ParseString and jwt.Validate, on a writer on which nothing was written
Handler.ServeHTTP answers with status 200 and a body that is exactly the token's subject
followed by one newline.  The white-space-trimmed body is the white-space-trimmed
subject; it equals the subject whenever the subject neither starts nor ends with white
space. -/
theorem ServeHTTP_subject_accepted (h : Handler) (jwt : JWT) (other : HandlerFunc)
    (r : Request) (s : World) (tok : Token)
    (hpath : r.path = "/subject")
    (hb : hasPrefix (Header.get r.header "Authorization") "Bearer " = true)
    (hp : jwt.parseString h.JWKSURL r.ctx (bearerToken r) = .ok tok)
    (hv : jwt.validate r.ctx tok h.ExpectedIssuer h.ExpectedAudience = none)
    (hs : s.resp.status = none) (hbody : s.resp.body = "") :
    (ServeHTTP h jwt other r s).resp.status = some 200 ∧
    (ServeHTTP h jwt other r s).resp.body = tok.subject ++ "\n" ∧
    trimSpace (ServeHTTP h jwt other r s).resp.body = trimSpace tok.subject ∧
    (noSurroundingSpace tok.subject = true →
      trimSpace (ServeHTTP h jwt other r s).resp.body = tok.subject) := by
  have hrun : ServeHTTP h jwt other r s = { s with resp := fprintln s.resp tok.subject } := by
    unfold ServeHTTP
    rw [withAuth_accepted h jwt r tok hb hp hv]
    simp [run, Effect.exec, mux, Request.withContext, hpath, subject,
      subjectFromContext_contextWithSubject]
  have hst : (fprintln s.resp tok.subject).status = some 200 := by
    simp [fprintln, ResponseWriter.write, ResponseWriter.writeHeader, hs]
  have hbd : (fprintln s.resp tok.subject).body = tok.subject ++ "\n" := by
    simp [fprintln, ResponseWriter.write, ResponseWriter.writeHeader, hs, hbody]
  rw [hrun]
  refine ⟨hst, hbd, ?_, ?_⟩
  · show trimSpace (fprintln s.resp tok.subject).body = trimSpace tok.subject
    rw [hbd, trimSpace_println]
  · intro hns
    show trimSpace (fprintln s.resp tok.subject).body = tok.subject
    rw [hbd, trimSpace_println, trimSpace_noSurroundingSpace _ hns]

/-- Witness of C8 amended: scenario B, subject "random-test-subject". -/
theorem ServeHTTP_subject_accepted_witness :
    (ServeHTTP testHandler
      (specJWT (parseOnly (testToken "random-test-subject" ["test-audience"])) 2000 0)
      idle (testRequest ["Bearer tok"]) World.fresh).resp.status = some 200 ∧
    (ServeHTTP testHandler
      (specJWT (parseOnly (testToken "random-test-subject" ["test-audience"])) 2000 0)
      idle (testRequest ["Bearer tok"]) World.fresh).resp.body = "random-test-subject\n" ∧
    trimSpace (ServeHTTP testHandler
      (specJWT (parseOnly (testToken "random-test-subject" ["test-audience"])) 2000 0)
      idle (testRequest ["Bearer tok"]) World.fresh).resp.body = "random-test-subject" :=
  have key := ServeHTTP_subject_accepted testHandler
    (specJWT (parseOnly (testToken "random-test-subject" ["test-audience"])) 2000 0)
    idle (testRequest ["Bearer tok"]) World.fresh
    (testToken "random-test-subject" ["test-audience"]) rfl (by decide) rfl (by decide)
    rfl rfl
  ⟨key.1, key.2.1, key.2.2.2 (by decide)⟩

/-! ## The middleware as a whole -/

/-- C10: for every request the handler returned by withAuth either calls the next
handler exactly once and writes nothing itself, or writes the one 401 response
"unauthenticated" and never calls the next handler.  It never panics: when the prefix
test passes the value has at least seven bytes and the slice `authorization[7:]` is in
range.  When the incoming context carries no subject, the context handed to the next
handler carries one only if the Authorization value starts with "Bearer ",
jwt.ParseString succeeded on exactly the value with its first seven bytes removed, and
jwt.Validate succeeded on the parsed token; the request handed on is then the incoming
one with that token's subject attached. -/
theorem withAuth_one_outcome (h : Handler) (jwt : JWT) (r : Request) :
    (((∃ r', nextCalls (withAuth h jwt r) = [r']) ∧ ownWrites (withAuth h jwt r) = []) ∨
      (nextCalls (withAuth h jwt r) = [] ∧
        ownWrites (withAuth h jwt r) = [("unauthenticated", 401)])) ∧
    Effect.panic ∉ withAuth h jwt r ∧
    (hasPrefix (Header.get r.header "Authorization") "Bearer " = true →
      7 ≤ (Header.get r.header "Authorization").data.length ∧
      sliceFrom (Header.get r.header "Authorization") 7 = some (bearerToken r)) ∧
    ((subjectFromContext r.ctx).2 = false →
      ∀ r' ∈ nextCalls (withAuth h jwt r), (subjectFromContext r'.ctx).2 = true →
        hasPrefix (Header.get r.header "Authorization") "Bearer " = true ∧
        ∃ tok, jwt.parseString h.JWKSURL r.ctx (bearerToken r) = .ok tok ∧
          jwt.validate r.ctx tok h.ExpectedIssuer h.ExpectedAudience = none ∧
          r' = r.withContext (contextWithSubject r.ctx tok.subject)) := by
  have hslice : hasPrefix (Header.get r.header "Authorization") "Bearer " = true →
      7 ≤ (Header.get r.header "Authorization").data.length ∧
      sliceFrom (Header.get r.header "Authorization") 7 = some (bearerToken r) :=
    fun hb => ⟨hasPrefix_bearer_length _ hb, sliceFrom_bearer _ hb⟩
  cases hb : hasPrefix (Header.get r.header "Authorization") "Bearer " with
  | false =>
    rw [withAuth_noBearer h jwt r hb]
    refine ⟨Or.inl ⟨⟨r, by simp [nextCalls]⟩, by simp [ownWrites]⟩, by simp, by simp, ?_⟩
    intro hctx r' hr' hsub
    simp [nextCalls] at hr'
    subst hr'
    rw [hctx] at hsub
    cases hsub
  | true =>
    cases hp : jwt.parseString h.JWKSURL r.ctx (bearerToken r) with
    | error err =>
      rw [withAuth_parseError h jwt r err hb hp]
      refine ⟨Or.inr ⟨by simp [nextCalls], by simp [ownWrites, statusUnauthorized]⟩,
        by simp, fun _ => hslice hb, ?_⟩
      intro _ r' hr'
      simp [nextCalls] at hr'
    | ok tok =>
      cases hv : jwt.validate r.ctx tok h.ExpectedIssuer h.ExpectedAudience with
      | some err =>
        rw [withAuth_validateError h jwt r tok err hb hp hv]
        refine ⟨Or.inr ⟨by simp [nextCalls], by simp [ownWrites, statusUnauthorized]⟩,
          by simp, fun _ => hslice hb, ?_⟩
        intro _ r' hr'
        simp [nextCalls] at hr'
      | none =>
        rw [withAuth_accepted h jwt r tok hb hp hv]
        refine ⟨Or.inl ⟨⟨r.withContext (contextWithSubject r.ctx tok.subject),
          by simp [nextCalls]⟩, by simp [ownWrites]⟩, by simp, fun _ => hslice hb, ?_⟩
        intro _ r' hr' _
        simp [nextCalls] at hr'
        exact ⟨rfl, tok, rfl, hv, hr'⟩

/-- Witness of C10: a token signed for another audience ends in the 401 branch, and the
slice of its header value is in range. -/
theorem withAuth_one_outcome_witness :
    Effect.panic ∉ withAuth testHandler
      (specJWT (parseOnly (testToken "test-subject" ["other-audience"])) 2000 0)
      (testRequest ["Bearer tok"]) ∧
    sliceFrom (Header.get (testRequest ["Bearer tok"]).header "Authorization") 7 =
      some (bearerToken (testRequest ["Bearer tok"])) :=
  have key := withAuth_one_outcome testHandler
    (specJWT (parseOnly (testToken "test-subject" ["other-audience"])) 2000 0)
    (testRequest ["Bearer tok"])
  ⟨key.2.1, (key.2.2.1 (by decide)).2⟩

end Auth0Demo
